import Mathlib

/-!
Verification development for the `ctc` (cycle time calculator) repository.

The Python sources are shallowly embedded: strings are `List Char` (named
`Str`), Python floats are modelled as exact rationals `ℚ`, Python `int` as
`ℤ`/`ℕ`, raised exceptions as `Except PyErr`.  Calls into external libraries
(pyaraucaria coordinates/ephemeris/parser and the `math` trigonometric
primitives) are abstracted into an `Ext` structure of arbitrary functions, so
theorems quantify over every possible behaviour of those collaborators.
Timestamps are seconds since the epoch; the process-local timezone is assumed
to be UTC, so `datetime.fromtimestamp`/`time.mktime` agree with UTC calendar
arithmetic.
-/

set_option maxRecDepth 4000

/-- Python exception kinds relevant to the embedded code. -/
inductive PyErr where
  | keyError
  | indexError
  | valueError
  | typeError
  | zeroDivisionError
deriving DecidableEq, Repr

instance {ε α : Type} [DecidableEq ε] [DecidableEq α] : DecidableEq (Except ε α) := fun x y =>
  match x, y with
  | .ok a, .ok b =>
    if h : a = b then isTrue (by rw [h]) else isFalse (fun hh => h (by cases hh; rfl))
  | .error a, .error b =>
    if h : a = b then isTrue (by rw [h]) else isFalse (fun hh => h (by cases hh; rfl))
  | .ok _, .error _ => isFalse (fun hh => by cases hh)
  | .error _, .ok _ => isFalse (fun hh => by cases hh)

/-- Python strings, modelled as lists of characters. -/
abbrev Str := List Char

/-- Python `abs` on a float, written so that it evaluates by kernel
reduction. -/
def pyAbs (q : ℚ) : ℚ := if q < 0 then -q else q

/-- Python `s.split(sep)` for a one-character separator: splits at every
occurrence, always returns at least one (possibly empty) part. -/
def pySplit (sep : Char) : Str → List Str
  | [] => [[]]
  | c :: t =>
    let r := pySplit sep t
    if c = sep then [] :: r else (c :: r.headI) :: r.tail

/-- Numeric value of a digit string (most significant first). -/
def natOfDigits (ds : Str) : ℕ :=
  ds.foldl (fun a c => a * 10 + (c.toNat - 48)) 0

/-- Strip leading and trailing whitespace, as Python `int`/`float` do. -/
def stripWs (s : Str) : Str :=
  ((s.dropWhile Char.isWhitespace).reverse.dropWhile Char.isWhitespace).reverse

/-- Python `int(s)` on a string: optional sign, then nonempty digits.
`none` models a raised `ValueError`. -/
def pyIntStr (s : Str) : Option ℤ :=
  match stripWs s with
  | [] => none
  | c :: ds =>
    if c = '-' then
      (if ds ≠ [] ∧ ds.all Char.isDigit then some (-(natOfDigits ds : ℤ)) else none)
    else if c = '+' then
      (if ds ≠ [] ∧ ds.all Char.isDigit then some (natOfDigits ds : ℤ) else none)
    else if (c :: ds).all Char.isDigit then some (natOfDigits (c :: ds) : ℤ) else none

/-- Unsigned decimal literal `digits[.digits]` (at least one digit overall). -/
def decPart (m : Str) : Option ℚ :=
  match pySplit '.' m with
  | [a] => if a ≠ [] ∧ a.all Char.isDigit then some (natOfDigits a : ℚ) else none
  | [a, b] =>
    if (a ≠ [] ∨ b ≠ []) ∧ a.all Char.isDigit ∧ b.all Char.isDigit then
      some ((natOfDigits a : ℚ) + (natOfDigits b : ℚ) / (10 : ℚ) ^ b.length)
    else none
  | _ => none

/-- Signed integer literal used in a float exponent. -/
def intPart (s : Str) : Option ℤ :=
  match s with
  | [] => none
  | c :: ds =>
    if c = '-' then
      (if ds ≠ [] ∧ ds.all Char.isDigit then some (-(natOfDigits ds : ℤ)) else none)
    else if c = '+' then
      (if ds ≠ [] ∧ ds.all Char.isDigit then some (natOfDigits ds : ℤ) else none)
    else if (c :: ds).all Char.isDigit then some (natOfDigits (c :: ds) : ℤ) else none

/-- Python `float(s)` on decimal literals (optional sign, decimal point,
exponent), modelled exactly over `ℚ`; `none` models a raised `ValueError`.
Exotic literals (`inf`, `nan`, underscores) are outside the model. -/
def pyFloatStr (s : Str) : Option ℚ :=
  let t := stripWs s
  let p : ℚ × Str :=
    match t with
    | '-' :: r => (-1, r)
    | '+' :: r => (1, r)
    | r => (1, r)
  let u := p.2.map (fun c => if c = 'E' then 'e' else c)
  match pySplit 'e' u with
  | [m] => (decPart m).map (fun q => p.1 * q)
  | [m, ex] =>
    match decPart m, intPart ex with
    | some q, some e => some (p.1 * q * (10 : ℚ) ^ e)
    | _, _ => none
  | _ => none

/-- Lift a parsed float, raising `ValueError` on failure. -/
def pyFloatE (s : Str) : Except PyErr ℚ :=
  match pyFloatStr s with
  | some q => .ok q
  | none => .error .valueError

/-- Python list indexing `l[i]` including negative indices. -/
def pyGet (l : List ℚ) (i : ℤ) : Except PyErr ℚ :=
  if 0 ≤ i then
    match l.get? i.toNat with
    | some v => .ok v
    | none => .error .indexError
  else
    let k := (-i).toNat
    if k ≤ l.length then
      match l.get? (l.length - k) with
      | some v => .ok v
      | none => .error .indexError
    else .error .indexError

/-- Records carried in a plan command, as produced by the external parser:
`command_name`, positional `args`, keyword `kwargs` (string-valued). -/
structure CommandDict where
  command_name : Option Str := none
  args : Option (List Str) := none
  kwargs : Option (List (Str × Str)) := none
deriving DecidableEq, Repr

/-- External collaborators: `math` trig primitives, pyaraucaria coordinate
transform / ephemeris / plan parser.  Theorems quantify over all of these. -/
structure ExtLib where
  radians : ℚ → ℚ
  cos : ℚ → ℚ
  sin : ℚ → ℚ
  acos : ℚ → ℚ
  degrees : ℚ → ℚ
  raToDecimal : Str → ℚ
  decToDecimal : Str → ℚ
  raDec2AzAlt : ℚ → ℚ → ℚ → ℚ × ℚ
  sunRiseSet : Bool → ℚ → ℚ → Option ℚ
  parsePlan : Str → Option CommandDict

/-- A trivial instantiation of the external collaborators, used to evaluate
theorems at concrete inputs. -/
def trivExt : ExtLib where
  radians := fun q => q
  cos := fun _ => 0
  sin := fun _ => 0
  acos := fun _ => 0
  degrees := fun q => q
  raToDecimal := fun _ => 0
  decToDecimal := fun _ => 0
  raDec2AzAlt := fun _ _ _ => (0, 0)
  sunRiseSet := fun _ _ _ => none
  parsePlan := fun _ => none

/-! ## Constants from `AbstractCycleTime` -/

def npStr : Str := "NIGHTPLAN".data

def waitStr : Str := "WAIT".data

/-- `_NO_TRAIN_COMMANDS = ['WAIT']`. -/
def noTrainCommands : List Str := [waitStr]

/-- `_POSSIBLE_DITHER = ['OBJECT', 'SNAP']`. -/
def possibleDither : List Str := ["OBJECT".data, "SNAP".data]

/-- `USE_OBJECT_PARAMS_IN = ['DARK', 'ZERO', 'SNAP']`. -/
def useObjectParamsIn : List Str := ["DARK".data, "ZERO".data, "SNAP".data]

/-- Per-telescope readout-mode MHz tables. -/
abbrev RmModes := List (Str × List ℚ)

/-- `_DEFAULT_RM_MODES_MHZ`. -/
def defaultRmModes : RmModes :=
  [("zb08".data, [5, 3, 1, 1/20]),
   ("jk15".data, [4, 2, 1, 1, 1/10, 1/10]),
   ("wk06".data, [5, 3, 1, 1/20]),
   ("dev".data, [1, 1, 1, 1, 1, 1, 1]),
   ("sim".data, [1, 1, 1, 1, 1, 1, 1]),
   ("default".data, [1, 1, 1, 1, 1, 1, 1, 1, 1, 1, 1, 1, 1])]

/-! ## Exposure-sequence feature functions (`abstract_cycle_time.py`) -/

/-- `re.fullmatch(r'\d*x\(.*\)', s)`: optional digits, then `x(`, any
non-newline characters, closing `)`. -/
def multipleSeqMatch (s : Str) : Bool :=
  match s.dropWhile Char.isDigit with
  | 'x' :: '(' :: rest =>
    rest.getLast? = some ')' && rest.dropLast.all (fun c => c ≠ '\n')
  | _ => false

/-- `AbstractCycleTime._multiple_seq`: split on every `x`, repeat
`spl_x[1][1:-1]` (comma-joined) `int(spl_x[0])` times. -/
def multipleSeq (s : Str) : Except PyErr Str :=
  let spl := pySplit 'x' s
  match pyIntStr spl.headI with
  | none => .error .valueError
  | some rep =>
    match spl.get? 1 with
    | none => .error .indexError
    | some s1 =>
      .ok (List.intercalate [','] (List.replicate rep.toNat ((s1.drop 1).dropLast)))

/-- `AbstractCycleTime.solve_multiple_seq`. -/
def solveMultipleSeq (s : Str) : Except PyErr Str :=
  if multipleSeqMatch s then multipleSeq s else .ok s

/-- One comma-part of `_exposure_time_sum`: `z[2]` is indexed before the
`try`, so a triple with fewer than three fields raises `IndexError`; inside
the `try`, a `ValueError` from `int(z[0])` or `float(t)` contributes `1`. -/
def expTriple (n : Str) : Except PyErr ℚ :=
  let z := pySplit '/' n
  match z.get? 2 with
  | none => .error .indexError
  | some z2 =>
    .ok (match pyIntStr z.headI with
      | none => 1
      | some c =>
        match (if z2 = "a".data then some (5 : ℚ) else pyFloatStr z2) with
        | none => 1
        | some f => (c : ℚ) * f)

/-- `AbstractCycleTime._exposure_time_sum`, as a function of the record's
`kwargs` mapping. -/
def exposureTimeSumKw (kwargs : Option (List (Str × Str))) : Except PyErr ℚ :=
  match kwargs with
  | none => .ok 0
  | some kw =>
    match List.lookup "seq".data kw with
    | none => .ok 0
    | some seq => do
      let sr ← solveMultipleSeq seq
      (pySplit ',' sr).foldlM (fun acc n => do
        let c ← expTriple n
        pure (acc + c)) (0 : ℚ)

/-- `AbstractCycleTime._exposure_number`: `int(n.split('/')[0])` is wholly
inside the `try`, so a malformed part contributes `1`. -/
def exposureNumberKw (kwargs : Option (List (Str × Str))) : Except PyErr ℚ :=
  match kwargs with
  | none => .ok 0
  | some kw =>
    match List.lookup "seq".data kw with
    | none => .ok 0
    | some seq => do
      let sr ← solveMultipleSeq seq
      (pySplit ',' sr).foldlM (fun acc n =>
        pure (acc + (match pyIntStr (pySplit '/' n).headI with
          | none => 1
          | some c => (c : ℚ)))) (0 : ℚ)

/-- `AbstractCycleTime._filter_changes` given the starting `filter_pos`
value (`none` models the integer sentinel `0`, which compares unequal to any
filter string). -/
def filterChangesE (f0 : Option Str) (kwargs : Option (List (Str × Str))) :
    Except PyErr ℚ :=
  match kwargs with
  | none => .ok 0
  | some kw =>
    match List.lookup "seq".data kw with
    | none => .ok 0
    | some seq => do
      let sr ← solveMultipleSeq seq
      let p ← (pySplit ',' sr).foldlM
        (fun (p : Option Str × ℚ) n =>
          match (pySplit '/' n).get? 1 with
          | none => .error .indexError
          | some z1 => .ok (some z1, if p.1 ≠ some z1 then p.2 + 1 else p.2))
        ((f0, 0) : Option Str × ℚ)
      pure p.2

/-- `AbstractCycleTime._last_filter`: filter of the last comma-part of the
raw (unexpanded) `seq`; `none` models the integer sentinel `0` returned when
there is no sequence. -/
def lastFilterE (kwargs : Option (List (Str × Str))) : Except PyErr (Option Str) :=
  match kwargs with
  | none => .ok none
  | some kw =>
    match List.lookup "seq".data kw with
    | none => .ok none
    | some seq =>
      match (pySplit '/' ((pySplit ',' seq).getLastD [])).get? 1 with
      | none => .error .indexError
      | some z1 => .ok (some z1)

/-- `AbstractCycleTime._dither_on`. -/
def ditherOn (cname : Str) (kwargs : Option (List (Str × Str))) : ℚ :=
  let kw := kwargs.getD []
  if cname = "SKYFLAT".data then
    match List.lookup "dither".data kw with
    | none => 1
    | some v => if v ≠ "off".data then 1 else 0
  else if cname ∈ possibleDither then
    match List.lookup "dither".data kw with
    | none => 0
    | some v => if v ≠ "off".data then 1 else 0
  else 1

/-! ## Geometry (`abstract_cycle_time.py`) -/

/-- `AbstractCycleTime._az_distance`: shortest azimuth distance with wrap at
the 0/360 boundary. -/
def azDistance (s e : ℚ) : ℚ :=
  if pyAbs (s - e) > 180 then
    (if s > e then pyAbs (s - (e + 360)) else pyAbs (e - (s + 360)))
  else pyAbs (s - e)

/-- `AbstractCycleTime._vector`: unit vector from alt/az in degrees, each
`math` call abstracted through `Ext`. -/
def vec3 (ext : ExtLib) (alt az : ℚ) : ℚ × ℚ × ℚ :=
  let azr := ext.radians az
  let altr := ext.radians alt
  (ext.cos azr * ext.cos altr, ext.sin altr, ext.sin azr * ext.cos altr)

/-- `AbstractCycleTime._alt_az_distance`: angle between alt/az positions,
returning exactly `0` when the two vectors are identical. -/
def altAzDistance (ext : ExtLib) (startAlt endAlt startAz endAz : ℚ) : ℚ :=
  let v1 := vec3 ext startAlt startAz
  let v2 := vec3 ext endAlt endAz
  if v1 = v2 then 0
  else ext.degrees (ext.acos (v1.1 * v2.1 + v1.2.1 * v2.2.1 + v1.2.2 * v2.2.2))

/-- `AbstractCycleTime._rm_mode`: `int(record['readoutmode'])` with only
`KeyError` caught (defaults to `1`); a non-numeric value raises. -/
def rmModeOf (readoutmode : Option Str) : Except PyErr ℤ :=
  match readoutmode with
  | none => .ok 1
  | some s =>
    match pyIntStr s with
    | some i => .ok i
    | none => .error .valueError

/-- The uncaught fallback `1 / rm_modes['default'][rm_mode]` used by
`_rm_mode_inverse_mhz`. -/
def rmDefaultFallback (table : RmModes) (r : ℤ) : Except PyErr ℚ :=
  match List.lookup "default".data table with
  | none => .error .keyError
  | some dl =>
    match pyGet dl r with
    | .error e => .error e
    | .ok v => if v = 0 then .error .zeroDivisionError else .ok (1 / v)

/-- `AbstractCycleTime._rm_mode_inverse_mhz`: a falsy (absent or empty)
table is replaced by the default table; `IndexError`/`ZeroDivisionError`
inside the guarded branch fall back to the `default` row, where further
errors propagate. -/
def rmModeInverseMhz (r : ℤ) (telescope : Str) (rm : Option RmModes) :
    Except PyErr ℚ :=
  let table := match rm with
    | none => defaultRmModes
    | some t => if t = [] then defaultRmModes else t
  match List.lookup telescope table with
  | some tl =>
    if (tl.length : ℤ) - 1 ≥ r then
      match pyGet tl r with
      | .error _ => rmDefaultFallback table r
      | .ok v => if v = 0 then rmDefaultFallback table r else .ok (1 / v)
    else rmDefaultFallback table r
  | none => rmDefaultFallback table r

/-! ## Raw records and night segmentation (`cycle_time_data_clean.py`) -/

/-- One raw event record; every field is optional (`none` = key absent).
All values are strings, as written by the data collector. -/
structure RawRecord where
  command_name : Option Str := none
  random_id : Option Str := none
  utc_time_stamp : Option Str := none
  utc_date_stamp : Option Str := none
  done : Option Str := none
  skipped : Option Str := none
  dome_az_begin : Option Str := none
  dome_az_end : Option Str := none
  mount_alt_begin : Option Str := none
  mount_alt_end : Option Str := none
  mount_az_begin : Option Str := none
  mount_az_end : Option Str := none
  filter_pos : Option Str := none
  readoutmode : Option Str := none
  dither : Option Str := none
  kwargs : Option (List (Str × Str)) := none
deriving DecidableEq, Repr

/-- A night span as stored in `full_nights_id`: `started` can be `None`
(a close record matched while no span was open). -/
structure NightSpan where
  started : Option ℕ
  ended : ℤ
  utc_time_stamp : Str
deriving DecidableEq, Repr

/-- Loop state of `_find_nights_id`. -/
structure SegState where
  random_id : Str
  line_started : Option ℕ
  nights : List (Str × NightSpan)
deriving DecidableEq, Repr

/-- Python dict assignment `d[k] = v`: replace the value of an existing key
or append a new binding. -/
def updateNights (l : List (Str × NightSpan)) (k : Str) (v : NightSpan) :
    List (Str × NightSpan) :=
  match l with
  | [] => [(k, v)]
  | e :: t => if e.1 = k then (k, v) :: t else e :: updateNights t k v

/-- One iteration of the `_find_nights_id` loop on record `r` at index `i`.
A `KeyError` from a missing field skips the record (the surrounding
`try`/`except` continues with the loop), leaving any not-yet-performed
mutations undone. -/
def findStep (st : SegState) (i : ℕ) (r : RawRecord) : SegState :=
  match r.command_name with
  | none => st
  | some cname =>
    if cname = npStr ∧ r.done = none ∧ r.skipped = none then
      match r.random_id with
      | none => st
      | some rid =>
        if st.random_id ≠ rid then
          match st.line_started with
          | some s =>
            match r.utc_time_stamp with
            | none => st
            | some u =>
              { st with
                nights := updateNights st.nights st.random_id ⟨some s, (i : ℤ) - 1, u⟩,
                line_started := none }
          | none => { st with random_id := rid, line_started := some i }
        else st
    else
      if cname = npStr ∧ (r.done ≠ none ∨ r.skipped ≠ none) then
        match r.random_id with
        | none => st
        | some rid =>
          if st.random_id = rid then
            match r.utc_time_stamp with
            | none => st
            | some u =>
              { st with
                nights := updateNights st.nights st.random_id ⟨st.line_started, (i : ℤ), u⟩,
                line_started := none }
          else st
      else st

/-- `CycleTimeDataClean._find_nights_id`. -/
def findNightsId (data : List RawRecord) : List (Str × NightSpan) :=
  (data.enum.foldl (fun st p => findStep st p.1 p.2) ⟨[], none, []⟩).nights

/-- One line of the night verification ledger. -/
structure LedgerEntry where
  random_id : Str
  utc_time_stamp : Str
deriving DecidableEq, Repr

/-- Python `dict.pop(k)` on the nights mapping. -/
def eraseKey (k : Str) : List (Str × NightSpan) → List (Str × NightSpan)
  | [] => []
  | e :: t => if e.1 = k then t else e :: eraseKey k t

/-- `CycleTimeDataClean._verify_nights`: drop every night whose
`random_id` appears in the ledger with an equal `utc_time_stamp`. -/
def verifyNights (nights : List (Str × NightSpan)) (ledger : List LedgerEntry) :
    List (Str × NightSpan) :=
  ledger.foldl (fun ns e =>
    match List.lookup e.random_id ns with
    | some sp => if sp.utc_time_stamp = e.utc_time_stamp then eraseKey e.random_id ns else ns
    | none => ns) nights

/-! ## Building feature records (`CycleTimeDataClean._build_command_data`) -/

/-- One row of the training dataset (`_DATA_CLEAN_ORDER`). -/
structure FeatureRecord where
  night_id : Str
  command_name : Str
  start_utc_date_stamp : Str
  cycle_time : ℚ
  dome_distance : ℚ
  mount_distance : ℚ
  exposure_time_sum : ℚ
  filter_changes : ℚ
  rmmode_expno : ℚ
  dither_expno : ℚ
deriving DecidableEq, Repr

/-- Raise `KeyError` on a missing dictionary field. -/
def keyOr {α : Type} (o : Option α) : Except PyErr α :=
  match o with
  | some a => .ok a
  | none => .error .keyError

/-- The `except (KeyError, IndexError, ValueError, TypeError)` handler
around the `OrderedDict` construction: those four kinds give `None`
(record dropped); a `ZeroDivisionError` is not caught and propagates. -/
def catchKIVT (e : Except PyErr FeatureRecord) : Except PyErr (Option FeatureRecord) :=
  match e with
  | .ok d => .ok (some d)
  | .error .zeroDivisionError => .error .zeroDivisionError
  | .error _ => .ok none

/-- Schema-drift fallback: the `_end` variant of a position field if
present on the successor record, else the `_begin` variant. -/
def endOrBegin (e b : Option Str) : Option Str :=
  if e.isSome then e else b

/-- The `OrderedDict` body of `_build_command_data`, evaluating the ten
fields in source order; the first failure raises. -/
def buildFeat (ext : ExtLib) (first second third : RawRecord)
    (telescope night_id : Str) (rm : Option RmModes) : Except PyErr FeatureRecord := do
  let cn ← keyOr first.command_name
  let uds ← keyOr first.utc_date_stamp
  let tus ← keyOr third.utc_time_stamp
  let tuq ← pyFloatE tus
  let fus ← keyOr first.utc_time_stamp
  let fuq ← pyFloatE fus
  let fdb ← keyOr first.dome_az_begin
  let fdbq ← pyFloatE fdb
  let tds ← keyOr (endOrBegin third.dome_az_end third.dome_az_begin)
  let tdq ← pyFloatE tds
  let fab ← keyOr first.mount_alt_begin
  let faq ← pyFloatE fab
  let tas ← keyOr (endOrBegin third.mount_alt_end third.mount_alt_begin)
  let taq ← pyFloatE tas
  let fzb ← keyOr first.mount_az_begin
  let fzq ← pyFloatE fzb
  let tzs ← keyOr (endOrBegin third.mount_az_end third.mount_az_begin)
  let tzq ← pyFloatE tzs
  let ets ← exposureTimeSumKw first.kwargs
  let fp ← keyOr first.filter_pos
  let fch ← filterChangesE (some fp) first.kwargs
  let rmm ← rmModeOf second.readoutmode
  let rmv ← rmModeInverseMhz rmm telescope rm
  let en ← exposureNumberKw first.kwargs
  let dv ← keyOr first.dither
  let dq : ℚ := if dv = "True".data then 1 else 0
  let en2 ← exposureNumberKw first.kwargs
  .ok ⟨night_id, cn, uds, tuq - fuq, azDistance fdbq tdq,
       altAzDistance ext faq taq fzq tzq, ets, fch, rmv * en, dq * en2⟩

/-- `CycleTimeDataClean._build_command_data`: index the three consecutive
records (a `LookupError` there yields `None`), reject an unterminated
`NIGHTPLAN` successor or an already-`done` start record, then build the
feature row with the four error kinds caught to `None`. -/
def buildCommandData (ext : ExtLib) (data : List RawRecord) (telescope night_id : Str)
    (line_start : ℕ) (rm : Option RmModes) : Except PyErr (Option FeatureRecord) :=
  match data.get? line_start, data.get? (line_start + 1), data.get? (line_start + 2) with
  | some first, some second, some third =>
    (match third.command_name with
     | none => .error .keyError
     | some c3 =>
       if c3 = npStr ∧ third.done = none ∧ third.skipped = none then .ok none
       else
         match first.done with
         | some v =>
           if v ≠ [] then .ok none
           else catchKIVT (buildFeat ext first second third telescope night_id rm)
         | none => catchKIVT (buildFeat ext first second third telescope night_id rm))
  | _, _, _ => .ok none

/-- The per-command accumulation dictionary of `_build_commands_data`. -/
abbrev CmdAccum := List (Str × List FeatureRecord)

/-- Python `commands_data[c] = []` when the key is new. -/
def ensureKey (cd : CmdAccum) (c : Str) : CmdAccum :=
  if (List.lookup c cd).isSome then cd else cd ++ [(c, [])]

/-- Python `commands_data[c].append(d)`. -/
def appendAt (cd : CmdAccum) (c : Str) (d : FeatureRecord) : CmdAccum :=
  match cd with
  | [] => [(c, [d])]
  | e :: t => if e.1 = c then (e.1, e.2 ++ [d]) :: t else e :: appendAt t c d

/-- The inner loop of `_build_commands_data` over `enumerate(masked_data)`:
a record with no `command_name` raises `KeyError` (uncaught); absent
successor or successor `skipped` field just continues; a `WAIT` record or a
successor not marked `skipped == 'False'` is not trained on. -/
def buildNightAux (ext : ExtLib) (masked : List RawRecord) (telescope night_id : Str)
    (rm : Option RmModes) : List (ℕ × RawRecord) → CmdAccum → Except PyErr CmdAccum
  | [], cd => .ok cd
  | (p, q) :: rest, cd =>
    match q.command_name with
    | none => .error .keyError
    | some c =>
      let cd1 := ensureKey cd c
      match masked.get? (p + 1) with
      | none => buildNightAux ext masked telescope night_id rm rest cd1
      | some nxt =>
        match nxt.skipped with
        | none => buildNightAux ext masked telescope night_id rm rest cd1
        | some sk =>
          if c ∉ noTrainCommands then
            if sk = "False".data then
              match buildCommandData ext masked telescope night_id p rm with
              | .error e => .error e
              | .ok none => buildNightAux ext masked telescope night_id rm rest cd1
              | .ok (some d) => buildNightAux ext masked telescope night_id rm rest (appendAt cd1 c d)
            else buildNightAux ext masked telescope night_id rm rest cd1
          else buildNightAux ext masked telescope night_id rm rest cd1

/-- `masked_data`: the records `data[started:ended]` (`range(started, ended)`
plus indexing); an out-of-range index raises inside a caught `try`, skipping
the night (`none`). -/
def nightMask (data : List RawRecord) (s : ℕ) (e : ℤ) : Option (List RawRecord) :=
  if e ≤ (s : ℤ) then some []
  else if e ≤ (data.length : ℤ) then some ((data.drop s).take (e - s).toNat)
  else none

/-- `CycleTimeDataClean._build_commands_data`: iterate the night spans; a
night whose `started` is `None` or whose mask fails is skipped by the caught
`try`; errors from the inner loop propagate. -/
def buildCommandsData (ext : ExtLib) (data : List RawRecord) (telescope : Str)
    (nights : List (Str × NightSpan)) (rm : Option RmModes) : Except PyErr CmdAccum :=
  nights.foldlM (fun cd night =>
    match night.2.started with
    | none => .ok cd
    | some s =>
      match nightMask data s night.2.ended with
      | none => .ok cd
      | some masked => buildNightAux ext masked telescope night.1 rm masked.enum cd) []

/-- `CycleTimeDataClean.data_clean` as a pure function from the parsed raw
log and the decoded ledger to the pair of append batches: the feature
records appended to the per-command clean-data files (in write order) and
the entries appended to the verification ledger. -/
def dataClean (ext : ExtLib) (raw : List RawRecord) (ledger : List LedgerEntry)
    (telescope : Str) (rm : Option RmModes) :
    Except PyErr (List (Str × FeatureRecord) × List LedgerEntry) :=
  let nights := findNightsId raw
  let remaining := verifyNights nights ledger
  match buildCommandsData ext raw telescope remaining rm with
  | .error e => .error e
  | .ok cd =>
    .ok (cd.foldl (fun acc e => acc ++ e.2.map (fun d => (e.1, d))) [],
         remaining.map (fun e => ⟨e.1, e.2.utc_time_stamp⟩))

/-! ## Cycle time calculator (`cycle_time_calc.py`) -/

/-- One trained parameter set (`train_param_last` record) for a telescope
and command. -/
structure TrainParam where
  coef : List (Str × ℚ)
  intercept : ℚ
  r2 : ℚ
  dome_average_dist : ℚ
  mount_average_dist : ℚ
deriving DecidableEq, Repr

/-- The mutable state of a `CycleTimeCalc` instance. -/
structure CTCState where
  available_param : List (Str × List (Str × TrainParam))
  telescope : Str
  rmode : ℤ := 0
  current_filter : Option Str := some []
  alt_mount : ℚ := 70
  az_mount : ℚ := 0
  az_dome : ℚ := 0
  time_length : ℚ := 0
  skipping : Bool := false
  alt_limit : ℚ := 15
  start_time : ℚ := 0
  time_length_list : List ℚ := []
  set_rm_modes : Option RmModes := none
  tpg : Bool := false
deriving DecidableEq, Repr

/-- Target azimuth and altitude in degrees. -/
structure AzAlt where
  az : ℚ
  alt : ℚ
deriving DecidableEq, Repr

/-- `CycleTimeCalc._avialable_param_telesc_commands`: command names with
trained parameters for the active telescope, minus the no-train commands. -/
def availableCommands (st : CTCState) : List Str :=
  let li := match List.lookup st.telescope st.available_param with
    | some m => m.map Prod.fst
    | none => []
  noTrainCommands.foldl (fun l n => l.erase n) li

/-- `CycleTimeCalc._mount_altaz_target`: ra/dec from `args` (two- or
three-element form) through the external coordinate transform, else literal
`az`/`alt` kwargs.  The kwargs guard `('az' and 'alt') in kwargs` tests only
`'alt'`, so a missing `az` key raises `KeyError`; a non-numeric value raises
`ValueError`. -/
def mountAltazTarget (ext : ExtLib) (st : CTCState) (cmd : CommandDict) :
    Except PyErr (Option AzAlt) :=
  let rd : Option (Str × Str) :=
    match cmd.args with
    | some l =>
      if l.length = 2 then some (l.headI, (l.get? 1).getD [])
      else if l.length = 3 then some ((l.get? 1).getD [], (l.get? 2).getD [])
      else none
    | none => none
  match rd with
  | some (ra, dec) =>
    let p := ext.raDec2AzAlt (ext.raToDecimal ra) (ext.decToDecimal dec)
      (st.start_time + st.time_length)
    .ok (some ⟨p.1, p.2⟩)
  | none =>
    match cmd.kwargs with
    | none => .ok none
    | some kw =>
      match List.lookup "alt".data kw with
      | none => .ok none
      | some altS =>
        match List.lookup "az".data kw with
        | none => .error .keyError
        | some azS =>
          match pyFloatStr azS with
          | none => .error .valueError
          | some az =>
            match pyFloatStr altS with
            | none => .error .valueError
            | some alt => .ok (some ⟨az, alt⟩)

/-- `CycleTimeCalc.forced_readout_mode`: with a `read_mod` kwarg present,
`self._set_rm_modes[self.telescope]` raises `TypeError` when the table is
unset and `KeyError` when the telescope is absent; otherwise the
string-typed kwarg is never equal to a float table entry, so the readout
mode is left unchanged (only an error is logged). -/
def forcedReadoutMode (cmd : CommandDict) (st : CTCState) : Except PyErr CTCState :=
  match cmd.kwargs with
  | none => .ok st
  | some kw =>
    match List.lookup "read_mod".data kw with
    | none => .ok st
    | some _ =>
      match st.set_rm_modes with
      | none => .error .typeError
      | some m =>
        match List.lookup st.telescope m with
        | none => .error .keyError
        | some _ => .ok st

/-- `CycleTimeCalc._calc_time`: alias `DARK`/`ZERO`/`SNAP` onto `OBJECT`,
look up the trained parameters (`KeyError` propagates), return `None` when
any feature name is missing from `coef`, else the linear combination plus
intercept. -/
def calcTimeLinear (st : CTCState) (commandName : Str) (params : List (Str × ℚ)) :
    Except PyErr (Option ℚ) :=
  let cname := if commandName ∈ useObjectParamsIn then "OBJECT".data else commandName
  match List.lookup st.telescope st.available_param with
  | none => .error .keyError
  | some telMap =>
    match List.lookup cname telMap with
    | none => .error .keyError
    | some param =>
      if params.all (fun p => (List.lookup p.1 param.coef).isSome) then
        .ok (some (params.foldl (fun acc p => acc + p.2 * (List.lookup p.1 param.coef).getD 0) 0
          + param.intercept))
      else .ok none

/-- The clamp in `_calc_time_no_wait_commands`: `None` and falsy `0.0`
yield `0.0`; a negative prediction yields `0.0`. -/
def clampTime (t : Option ℚ) : ℚ :=
  match t with
  | some v => if v ≠ 0 then (if v ≥ 0 then v else 0) else 0
  | none => 0

/-- The position/distance branch of `_calc_time_no_wait_commands`:
`none` is the below-limit skip (`return 0.0` with no state change);
otherwise the dome/mount distances and the possibly-updated state. -/
def positionStep (ext : ExtLib) (azalt : Option AzAlt) (cnameOpt : Option Str)
    (st : CTCState) : Option (ℚ × ℚ × CTCState) :=
  match azalt, st.tpg with
  | some a, false =>
    if a.alt ≥ st.alt_limit ∨ (a.alt < st.alt_limit ∧ st.skipping = false) then
      some (azDistance st.az_dome a.az,
            altAzDistance ext st.alt_mount a.alt st.az_mount a.az,
            { st with alt_mount := a.alt, az_mount := a.az, az_dome := a.az })
    else none
  | _, true =>
    match cnameOpt with
    | none => some (0, 0, st)
    | some c =>
      match List.lookup st.telescope st.available_param with
      | none => some (0, 0, st)
      | some telMap =>
        match List.lookup c telMap with
        | none => some (0, 0, st)
        | some p => some (p.dome_average_dist, p.mount_average_dist, st)
  | none, false => some (0, 0, st)

/-- The six feature values fed to the linear model, in source insertion
order. -/
def paramList (dome mnt ets fch rme dte : ℚ) : List (Str × ℚ) :=
  [("dome_distance".data, dome), ("mount_distance".data, mnt),
   ("exposure_time_sum".data, ets), ("filter_changes".data, fch),
   ("rmmode_expno".data, rme), ("dither_expno".data, dte)]

/-- Result of a stateful call: the Python return value or raised exception,
together with the state at return/raise time. -/
abbrev CResult := Except PyErr ℚ × CTCState

/-- `CycleTimeCalc._calc_time_no_wait_commands`. -/
def calcTimeNoWait (ext : ExtLib) (cmd : CommandDict) (st : CTCState) : CResult :=
  match mountAltazTarget ext st cmd with
  | .error e => (.error e, st)
  | .ok azalt =>
    match positionStep ext azalt cmd.command_name st with
    | none => (.ok 0, st)
    | some (dome, mnt, st1) =>
      match exposureNumberKw cmd.kwargs with
      | .error e => (.error e, st1)
      | .ok expno =>
        match cmd.command_name with
        | none => (.error .keyError, st1)
        | some cname =>
          let dither := ditherOn cname cmd.kwargs
          match exposureTimeSumKw cmd.kwargs with
          | .error e => (.error e, st1)
          | .ok ets =>
            match filterChangesE st1.current_filter cmd.kwargs with
            | .error e => (.error e, st1)
            | .ok fch =>
              match forcedReadoutMode cmd st1 with
              | .error e => (.error e, st1)
              | .ok st2 =>
                match rmModeInverseMhz st2.rmode st2.telescope st2.set_rm_modes with
                | .error e => (.error e, st2)
                | .ok rmv =>
                  match lastFilterE cmd.kwargs with
                  | .error e => (.error e, st2)
                  | .ok lf =>
                    let st3 := { st2 with current_filter := lf }
                    match calcTimeLinear st3 cname
                        (paramList dome mnt ets fch (rmv * expno) (dither * expno)) with
                    | .error e => (.error e, st3)
                    | .ok tc =>
                      let comm := clampTime tc
                      (.ok comm, { st3 with time_length := st3.time_length + comm })

/-- `strptime` on the `%H:%M:%S` part: three colon-separated groups of one
or two digits within the clock-time ranges (`ValueError` otherwise). -/
def parseHMS (s : Str) : Option (ℕ × ℕ × ℕ) :=
  match pySplit ':' s with
  | [h, m, sec] =>
    if (h ≠ [] ∧ h.length ≤ 2 ∧ h.all Char.isDigit ∧ natOfDigits h ≤ 23)
        ∧ (m ≠ [] ∧ m.length ≤ 2 ∧ m.all Char.isDigit ∧ natOfDigits m ≤ 59)
        ∧ (sec ≠ [] ∧ sec.length ≤ 2 ∧ sec.all Char.isDigit ∧ natOfDigits sec ≤ 61) then
      some (natOfDigits h, natOfDigits m, natOfDigits sec)
    else none
  | _ => none

/-- `CycleTimeCalc._that_day_time`: the timestamp of clock time `timeStr`
on the calendar day of `ts` (process timezone assumed UTC). -/
def thatDayTime (ts : ℚ) (timeStr : Str) : Except PyErr ℚ :=
  match parseHMS timeStr with
  | none => .error .valueError
  | some (h, m, s) =>
    .ok (((ts / 86400 : ℚ).floor : ℚ) * 86400 + (h : ℚ) * 3600 + (m : ℚ) * 60 + (s : ℚ))

/-- Timedelta `.seconds` component of `sun - now`: the nonnegative
seconds-of-day part of the (floored) difference. -/
def tdSeconds (sunTs nowTs : ℚ) : ℚ :=
  (((sunTs - nowTs : ℚ).floor % 86400 : ℤ) : ℚ)

/-- Increase the accumulated time length. -/
def addLen (t : ℚ) (st : CTCState) : CTCState :=
  { st with time_length := st.time_length + t }

/-- `CycleTimeCalc._calc_time_wait_command`: exactly one of `sec`, `ut`,
`sunrise`, `sunset`, checked in that priority; the second `_that_day_time`
call in the day-rollover branch receives the raw, unnormalized `ut`
string. -/
def calcTimeWait (ext : ExtLib) (cmd : CommandDict) (st : CTCState) : CResult :=
  if cmd.command_name = some waitStr then
    match cmd.kwargs with
    | none => (.ok 0, st)
    | some kw =>
      match List.lookup "sec".data kw with
      | some s =>
        (match pyFloatStr s with
         | none => (.error .valueError, st)
         | some t => (.ok t, addLen t st))
      | none =>
        match List.lookup "ut".data kw with
        | some u =>
          let dat0 := st.start_time + st.time_length
          let val := pySplit ':' u
          let utNorm := if val.length = 2
            then val.headI ++ ':' :: (val.get? 1).getD [] ++ ":00".data
            else u
          (match thatDayTime dat0 utNorm with
           | .error e => (.error e, st)
           | .ok target =>
             if target ≥ dat0 then (.ok (target - dat0), addLen (target - dat0) st)
             else
               match thatDayTime (dat0 + 86400) u with
               | .error e => (.error e, st)
               | .ok t2 => (.ok (t2 - dat0), addLen (t2 - dat0) st))
        | none =>
          match List.lookup "sunrise".data kw with
          | some hs =>
            (match pyFloatStr hs with
             | none => (.error .valueError, st)
             | some hh =>
               let now := st.start_time + st.time_length
               match ext.sunRiseSet true hh now with
               | none => (.ok 0, st)
               | some sunTs =>
                 let t := tdSeconds sunTs now
                 if t / 3600 > 18 then (.ok 0, st) else (.ok t, addLen t st))
          | none =>
            match List.lookup "sunset".data kw with
            | some hs =>
              (match pyFloatStr hs with
               | none => (.error .valueError, st)
               | some hh =>
                 let now := st.start_time + st.time_length
                 match ext.sunRiseSet false hh now with
                 | none => (.ok 0, st)
                 | some sunTs =>
                   let t := tdSeconds sunTs now
                   if t / 3600 > 12 then (.ok 0, st) else (.ok t, addLen t st))
            | none => (.ok 0, st)
  else (.ok 0, st)

/-- The argument of `calc_time`: a plan string, a command mapping, or a
value of any other type. -/
inductive CalcInput where
  | str (s : Str)
  | dict (d : CommandDict)
  | other
deriving Repr

/-- Append one result to the per-command history list. -/
def appendList (t : ℚ) (st : CTCState) : CTCState :=
  { st with time_length_list := st.time_length_list ++ [t] }

/-- The dispatch body of `calc_time` on a structured record, with the
surrounding `try`/`except KeyError` that degrades a `KeyError` to the
initial `tim = 0.0` (skipping the history append). -/
def dispatchCalc (ext : ExtLib) (d : CommandDict) (st : CTCState) : CResult :=
  let body : CResult :=
    match d.command_name with
    | none => (.error .keyError, st)
    | some cname =>
      if cname ∈ availableCommands st then
        match calcTimeNoWait ext d st with
        | (.ok t, st1) => (.ok t, appendList t st1)
        | r => r
      else if cname ∈ noTrainCommands then
        match calcTimeWait ext d st with
        | (.ok t, st1) => (.ok t, appendList t st1)
        | r => r
      else (.ok 0, appendList 0 st)
  match body with
  | (.error .keyError, st1) => (.ok 0, st1)
  | r => r

/-- `CycleTimeCalc.calc_time`: textual input goes through the external plan
parser (a failed `subcommands[0]` extraction leaves the string in place and
the subsequent string indexing raises `TypeError`); a non-string,
non-mapping input raises `TypeError` directly. -/
def calcTime (ext : ExtLib) (inp : CalcInput) (st : CTCState) : CResult :=
  match inp with
  | .str s =>
    (match ext.parsePlan s with
     | some d => dispatchCalc ext d st
     | none => (.error .typeError, st))
  | .dict d => dispatchCalc ext d st
  | .other => (.error .typeError, st)

/-- `CycleTimeCalc.reset_time`: the accumulator, history and start instant
are reset together; simulated position and filter state persist. -/
def resetTime (now : ℚ) (st : CTCState) : CTCState :=
  { st with start_time := now, time_length_list := [], time_length := 0 }

/-- A trained parameter set whose only nonzero coefficient is
`exposure_time_sum`, with intercept `5`. -/
def etsOnlyParam : TrainParam where
  coef := [("dome_distance".data, 0), ("mount_distance".data, 0),
           ("exposure_time_sum".data, 1), ("filter_changes".data, 0),
           ("rmmode_expno".data, 0), ("dither_expno".data, 0)]
  intercept := 5
  r2 := 1
  dome_average_dist := 0
  mount_average_dist := 0

/-! ## Concrete instances used to evaluate the theorems -/

/-- A calculator state with no trained parameters, started at noon of
1970-01-01 UTC (timestamp `43200`). -/
def stNoon : CTCState :=
  { available_param := [], telescope := "t1".data, start_time := 43200 }

/-- A calculator state with the `exposure_time_sum`-only OBJECT model. -/
def stObject : CTCState :=
  { available_param := [("t1".data, [("OBJECT".data, etsOnlyParam)])],
    telescope := "t1".data }

/-- The `OBJECT`-model state with skip-below-limit mode enabled. -/
def stSkip : CTCState :=
  { available_param := [("t1".data, [("OBJECT".data, etsOnlyParam)])],
    telescope := "t1".data, skipping := true }

/-- A `WAIT` command with a 30 second literal duration. -/
def waitSecCmd : CommandDict :=
  { command_name := some waitStr, kwargs := some [("sec".data, "30".data)] }

/-- An `OBJECT` command at literal azimuth 10, altitude 5 (below the
default altitude limit of 15). -/
def lowObjectCmd : CommandDict :=
  { command_name := some "OBJECT".data,
    kwargs := some [("az".data, "10".data), ("alt".data, "5".data)] }

/-- A `WAIT` command with a clock-time `ut` kwarg. -/
def waitUtCmd (u : Str) : CommandDict :=
  { command_name := some waitStr, kwargs := some [("ut".data, u)] }

/-- A `NIGHTPLAN` start record for session `A`. -/
def rawStartA : RawRecord :=
  { command_name := some npStr, random_id := some "A".data, utc_time_stamp := some "1".data }

/-- A `NIGHTPLAN` start record for session `B`, immediately following. -/
def rawStartB : RawRecord :=
  { command_name := some npStr, random_id := some "B".data, utc_time_stamp := some "2".data }

/-- A span is well-bounded when its recorded start index does not exceed
its end index. -/
def spanOk (sp : NightSpan) : Prop :=
  ∀ s : ℕ, sp.started = some s → (s : ℤ) ≤ sp.ended

/-- Invariant of the `_find_nights_id` loop after `k` records: every stored
span is well-bounded and an open start index precedes `k`. -/
def segOk (st : SegState) (k : ℕ) : Prop :=
  (∀ e ∈ st.nights, spanOk e.2) ∧ (∀ s : ℕ, st.line_started = some s → s < k)

/-- A mid-night command record. -/
def rawMid : RawRecord := { command_name := some "OBJECT".data }

/-- The `done`-marked `NIGHTPLAN` record closing session `A`. -/
def rawDoneA : RawRecord :=
  { command_name := some npStr, random_id := some "A".data,
    utc_time_stamp := some "9".data, done := some "True".data }

/-- A complete `OBJECT` start record except for a missing `dither` key. -/
def r0Night : RawRecord :=
  { command_name := some "OBJECT".data, utc_date_stamp := some "d0".data,
    utc_time_stamp := some "100".data, dome_az_begin := some "10".data,
    mount_alt_begin := some "50".data, mount_az_begin := some "10".data,
    filter_pos := some "Red".data, kwargs := some [("seq".data, "1/Red/2".data)] }

/-- A successor record marking the previous command as not skipped. -/
def r1Night : RawRecord :=
  { command_name := some "OBJECT".data, skipped := some "False".data }

/-- The same start record as `r0Night` but with `dither` present and equal
to `'True'`, later in the night. -/
def r2Night : RawRecord := { r0Night with dither := some "True".data, utc_time_stamp := some "200".data, dome_az_begin := some "20".data, mount_alt_begin := some "60".data, mount_az_begin := some "20".data }

/-- The closing command record of the night. -/
def r4Night : RawRecord :=
  { command_name := some "OBJECT".data, utc_time_stamp := some "300".data,
    dome_az_begin := some "30".data, mount_alt_begin := some "70".data,
    mount_az_begin := some "30".data }

/-- A masked night with two feature-record candidates: one whose start
record lacks `dither` and one whose start record carries `dither = 'True'`. -/
def nightRecs : List RawRecord := [r0Night, r1Night, r2Night, r1Night, r4Night]

/-- An arbitrary feature record. -/
def dummyFeat : FeatureRecord := ⟨[], [], [], 0, 0, 0, 0, 0, 0, 0⟩

/-! ## Helper lemmas -/

theorem isDigit_ne {c d : Char} (h : c.isDigit = true) (hd : d.isDigit = false) : c ≠ d := by
  intro he
  rw [he, hd] at h
  cases h

theorem isDigit_not_ws {c : Char} (h : c.isDigit = true) : c.isWhitespace = false := by
  by_contra hw
  rw [Bool.not_eq_false] at hw
  have hx : c = ' ' ∨ c = '\t' ∨ c = '\x0d' ∨ c = '\n' := by
    simpa [Char.isWhitespace, or_assoc] using hw
  rcases hx with h1 | h1 | h1 | h1 <;> (subst h1; exact absurd h (by decide))

theorem dropWhile_of_head_false {p : Char → Bool} {s : Str}
    (h : ∀ c ∈ s, p c = false) : s.dropWhile p = s := by
  cases s with
  | nil => rfl
  | cons c t => simp [List.dropWhile, h c (List.mem_cons_self _ _)]

theorem stripWs_digits {s : Str} (h : ∀ c ∈ s, c.isDigit = true) : stripWs s = s := by
  have h1 : s.dropWhile Char.isWhitespace = s :=
    dropWhile_of_head_false (fun c hc => isDigit_not_ws (h c hc))
  have h2 : s.reverse.dropWhile Char.isWhitespace = s.reverse :=
    dropWhile_of_head_false (fun c hc => isDigit_not_ws (h c (List.mem_reverse.mp hc)))
  simp [stripWs, h1, h2]

theorem dropWhile_append_all {p : Char → Bool} :
    ∀ {a : Str} {b : Str}, (∀ c ∈ a, p c = true) → (a ++ b).dropWhile p = b.dropWhile p
  | [], _, _ => rfl
  | c :: t, b, h => by
    simp only [List.cons_append, List.dropWhile, h c (List.mem_cons_self _ _)]
    exact dropWhile_append_all (fun x hx => h x (List.mem_cons_of_mem _ hx))

theorem pySplit_of_not_mem {sep : Char} :
    ∀ {a : Str}, (∀ c ∈ a, c ≠ sep) → pySplit sep a = [a]
  | [], _ => rfl
  | c :: t, h => by
    have ht := pySplit_of_not_mem (fun x hx => h x (List.mem_cons_of_mem _ hx))
    simp [pySplit, h c (List.mem_cons_self _ _), ht]

theorem pySplit_append {sep : Char} :
    ∀ {a : Str} (b : Str), (∀ c ∈ a, c ≠ sep) →
      pySplit sep (a ++ sep :: b) = a :: pySplit sep b
  | [], b, _ => by simp [pySplit]
  | c :: t, b, h => by
    have ht := pySplit_append (a := t) b (fun x hx => h x (List.mem_cons_of_mem _ hx))
    simp [pySplit, h c (List.mem_cons_self _ _), ht]

theorem pyIntStr_digits {s : Str} (h1 : s ≠ []) (h2 : ∀ c ∈ s, c.isDigit = true) :
    pyIntStr s = some (natOfDigits s : ℤ) := by
  cases s with
  | nil => exact absurd rfl h1
  | cons c t =>
    have hc : c.isDigit = true := h2 c (List.mem_cons_self _ _)
    have hall : (c :: t).all Char.isDigit = true :=
      List.all_eq_true.mpr (fun x hx => h2 x hx)
    have hred : pyIntStr (c :: t)
        = (if c = '-' then
            (if t ≠ [] ∧ t.all Char.isDigit then some (-(natOfDigits t : ℤ)) else none)
          else if c = '+' then
            (if t ≠ [] ∧ t.all Char.isDigit then some (natOfDigits t : ℤ) else none)
          else if (c :: t).all Char.isDigit then some (natOfDigits (c :: t) : ℤ) else none) := by
      unfold pyIntStr
      rw [stripWs_digits h2]
    rw [hred, if_neg (isDigit_ne hc (by decide)), if_neg (isDigit_ne hc (by decide)), if_pos hall]

/-! ## Claim C4 -/

/-- C4: the claim says both exposure feature functions are total with
malformed triples contributing `1`.  In `_exposure_time_sum` the index
`z[2]` is evaluated before the `try`, so the two-field triple `3/Red`
raises `IndexError` to the caller; `_exposure_number` handles the same
record, and a non-numeric exposure time is indeed absorbed as `1`. -/
theorem c4_exposure_totality_bug :
    exposureTimeSumKw (some [("seq".data, "3/Red".data)]) = .error .indexError ∧
    exposureNumberKw (some [("seq".data, "3/Red".data)]) = .ok 3 ∧
    exposureTimeSumKw (some [("seq".data, "1/R/zz".data)]) = .ok 1 := by
  with_unfolding_all decide

/-! ## Claim C5 -/

/-- C5 (corrected): expanding a repeat sequence `<N>x(<inner>)` yields `N`
comma-joined copies of `<inner>` provided `<inner>` contains no `x` (the
code splits on every `x`) and no newline; the spec's concrete examples hold:
`2x(3/Red/4)` expands to `3/Red/4,3/Red/4` with exposure time sum `24` and
exposure count `6`. -/
theorem c5_expansion (ds inner : Str) (h1 : ds ≠ [])
    (h2 : ∀ c ∈ ds, c.isDigit = true)
    (h3 : ∀ c ∈ inner, c ≠ 'x' ∧ c ≠ '\n') :
    solveMultipleSeq (ds ++ ('x' :: ('(' :: (inner ++ [')']))))
      = .ok (List.intercalate [','] (List.replicate (natOfDigits ds) inner)) ∧
    solveMultipleSeq "2x(3/Red/4)".data = .ok "3/Red/4,3/Red/4".data ∧
    exposureTimeSumKw (some [("seq".data, "2x(3/Red/4)".data)]) = .ok 24 ∧
    exposureNumberKw (some [("seq".data, "2x(3/Red/4)".data)]) = .ok 6 := by
  refine ⟨?_, by with_unfolding_all decide, by with_unfolding_all decide,
    by with_unfolding_all decide⟩
  have hd : List.dropWhile Char.isDigit (ds ++ ('x' :: ('(' :: (inner ++ [')']))))
      = 'x' :: ('(' :: (inner ++ [')'])) := by
    rw [dropWhile_append_all (b := 'x' :: ('(' :: (inner ++ [')']))) h2]
    rfl
  have hmatch : multipleSeqMatch (ds ++ ('x' :: ('(' :: (inner ++ [')'])))) = true := by
    unfold multipleSeqMatch
    rw [hd]
    simp only [List.getLast?_concat, List.dropLast_concat, Bool.and_eq_true,
      decide_eq_true_eq, List.all_eq_true]
    exact ⟨trivial, fun c hc => by simp [(h3 c hc).2]⟩
  have hsplit : pySplit 'x' (ds ++ ('x' :: ('(' :: (inner ++ [')']))))
      = [ds, '(' :: (inner ++ [')'])] := by
    rw [pySplit_append (a := ds) ('(' :: (inner ++ [')']))
        (fun c hc => isDigit_ne (h2 c hc) (by decide)),
      pySplit_of_not_mem]
    intro c hc
    rcases List.mem_cons.mp hc with rfl | hc2
    · decide
    rcases List.mem_append.mp hc2 with h4 | h4
    · exact (h3 c h4).1
    · rw [List.mem_singleton.mp h4]; decide
  have hslice : (((('(' :: (inner ++ [')'])) : Str)).drop 1).dropLast = inner := by
    rw [show ((('(' :: (inner ++ [')'])) : Str)).drop 1 = inner ++ [')'] from rfl,
      List.dropLast_concat]
  unfold solveMultipleSeq
  rw [hmatch, if_pos rfl]
  unfold multipleSeq
  rw [hsplit]
  simp only [List.headI, pyIntStr_digits h1 h2, hslice, List.get?, Int.toNat_natCast]

/-- C5 counterexample: `"2x(ax)"` has the repeat-syntax form with `N = 2`
and `inner = "ax"`, but `solve_multiple_seq` returns `","` instead of the
two comma-joined copies `"ax,ax"`. -/
theorem c5_counterexample :
    solveMultipleSeq "2x(ax)".data = .ok ",".data ∧
    List.intercalate [','] (List.replicate 2 "ax".data) = "ax,ax".data ∧
    solveMultipleSeq "2x(ax)".data ≠ .ok "ax,ax".data := by
  refine ⟨by decide, by decide, by decide⟩

/-- C5 witness: the amended expansion theorem applied at `N = 2`,
`inner = "3/Red/4"`. -/
theorem c5_witness :
    solveMultipleSeq (['2'] ++ ('x' :: ('(' :: ((['3', '/', 'R', 'e', 'd', '/', '4'] : Str) ++ [')']))))
      = .ok (List.intercalate [',']
          (List.replicate (natOfDigits ['2']) ['3', '/', 'R', 'e', 'd', '/', '4'])) :=
  (c5_expansion ['2'] ['3', '/', 'R', 'e', 'd', '/', '4'] (by decide)
    (fun c hc => by
      simp only [List.mem_cons, List.not_mem_nil, or_false] at hc
      rw [hc]; decide)
    (fun c hc => by
      simp only [List.mem_cons, List.not_mem_nil, or_false] at hc
      rcases hc with rfl | rfl | rfl | rfl | rfl | rfl | rfl <;> exact ⟨by decide, by decide⟩)).1

/-! ## Claim C6 -/

/-- C6: the claim says a `WAIT` with `ut` of the form `HH:MM` or `HH:MM:SS`
rolls to the following day when the time has already passed.  The rollover
branch passes the raw `ut` (not the `:00`-normalized string) to
`strptime("%H:%M:%S")`, so a passed `HH:MM` raises `ValueError` instead of
rolling over; the `HH:MM:SS` forms behave as the claim says, both without
and with rollover, and add exactly the returned duration. -/
theorem c6_wait_ut_rollover_bug :
    calcTime trivExt (.dict (waitUtCmd "00:00".data)) stNoon
      = (.error .valueError, stNoon) ∧
    calcTime trivExt (.dict (waitUtCmd "23:00:00".data)) stNoon
      = (.ok 39600, { stNoon with time_length := 39600, time_length_list := [39600] }) ∧
    calcTime trivExt (.dict (waitUtCmd "01:00:00".data)) stNoon
      = (.ok 46800, { stNoon with time_length := 46800, time_length_list := [46800] }) := by
  refine ⟨by with_unfolding_all rfl, by with_unfolding_all rfl, by with_unfolding_all rfl⟩

/-! ## Claim C2: counterexample -/

/-- C2 counterexample: two adjacent `NIGHTPLAN` start records (sessions `A`
then `B`) make the defensive closure emit the span
`{started := 0, ended := 0}` for `A`, refuting `started < ended`. -/
theorem c2_counterexample :
    findNightsId [rawStartA, rawStartB] = [("A".data, ⟨some 0, 0, "2".data⟩)] ∧
    ¬ ((0 : ℤ) < 0) := by
  refine ⟨by decide, by decide⟩

/-! ## Claim C1 -/

/-- C1: for a command with trained parameters (aliases `DARK`/`ZERO`/`SNAP`
use the `OBJECT` model), `_calc_time` evaluates
`Σ feature_i × coef_i + intercept`; the caller clamps: any value is clamped
to `max 0`, and a missing coefficient gives `None`, clamped to `0`; with
`coef = {exposure_time_sum: 1, others 0}`, `intercept = 5` and a command
with `exposure_time_sum = 10`, the prediction is exactly `15`. -/
theorem c1_linear_model (st : CTCState) (cname : Str) (params : List (Str × ℚ))
    (telMap : List (Str × TrainParam)) (param : TrainParam)
    (h1 : List.lookup st.telescope st.available_param = some telMap)
    (h2 : List.lookup (if cname ∈ useObjectParamsIn then "OBJECT".data else cname) telMap
      = some param) :
    ((∀ p ∈ params, (List.lookup p.1 param.coef).isSome = true) →
      calcTimeLinear st cname params
        = .ok (some (params.foldl
            (fun acc p => acc + p.2 * (List.lookup p.1 param.coef).getD 0) 0
            + param.intercept))) ∧
    ((∃ p ∈ params, List.lookup p.1 param.coef = none) →
      calcTimeLinear st cname params = .ok none) ∧
    (∀ q : ℚ, clampTime (some q) = max 0 q) ∧
    clampTime none = 0 ∧
    (calcTimeLinear stObject "OBJECT".data (paramList 0 0 10 0 0 0) = .ok (some 15) ∧
      clampTime (some 15) = 15) := by
  refine ⟨?_, ?_, ?_, rfl, by with_unfolding_all rfl, by with_unfolding_all rfl⟩
  · intro hall
    simp only [calcTimeLinear, h1, h2, List.all_eq_true.mpr hall, if_true]
  · rintro ⟨p, hp, hnone⟩
    have hfalse : (params.all fun q => (List.lookup q.1 param.coef).isSome) = false := by
      cases hv : params.all fun q => (List.lookup q.1 param.coef).isSome with
      | false => rfl
      | true =>
        have := List.all_eq_true.mp hv p hp
        rw [hnone] at this
        cases this
    simp only [calcTimeLinear, h1, h2, hfalse, Bool.false_eq_true, if_false]
  · intro q
    simp only [clampTime]
    split_ifs with hq hge
    · exact (max_eq_right hge).symm
    · exact (max_eq_left (le_of_lt (not_le.mp hge))).symm
    · push_neg at hq
      rw [hq, max_self]

/-- C1 witness: the linear model theorem applied to the
`exposure_time_sum`-only `OBJECT` parameters at feature value `10`. -/
theorem c1_witness :
    calcTimeLinear stObject "OBJECT".data (paramList 0 0 10 0 0 0) = .ok (some 15) ∧
    clampTime (some 15) = 15 :=
  (c1_linear_model stObject "OBJECT".data (paramList 0 0 10 0 0 0)
    [("OBJECT".data, etsOnlyParam)] etsOnlyParam (by rfl) (by rfl)).2.2.2.2

/-! ## Claim C7 -/

/-- C7 counterexample: a mapping lacking `command_name` does not raise; the
`KeyError` is caught (`except KeyError`) and `calc_time` returns `0.0`. -/
theorem c7_counterexample :
    calcTime trivExt (.dict { command_name := none }) stObject = (.ok 0, stObject) := by
  with_unfolding_all rfl

/-- C7 (corrected): a non-string, non-mapping argument raises `TypeError`
immediately, and unparseable command text ends in a `TypeError` from
indexing the unparsed string; but a mapping lacking `command_name` is
degraded to a `0.0` result (its `KeyError` is caught and logged), not
raised. -/
theorem c7_type_errors :
    (∀ (ext : ExtLib) (st : CTCState), calcTime ext .other st = (.error .typeError, st)) ∧
    (∀ (ext : ExtLib) (st : CTCState) (s : Str), ext.parsePlan s = none →
      calcTime ext (.str s) st = (.error .typeError, st)) ∧
    (∀ (ext : ExtLib) (st : CTCState) (d : CommandDict), d.command_name = none →
      calcTime ext (.dict d) st = (.ok 0, st)) := by
  refine ⟨fun ext st => rfl, fun ext st s h => by simp only [calcTime, h], ?_⟩
  intro ext st d h
  simp only [calcTime, dispatchCalc, h]

/-- C7 witness: unparseable text under a parser that yields no structured
subcommand raises `TypeError`. -/
theorem c7_witness :
    calcTime trivExt (.str "???".data) stObject = (.error .typeError, stObject) :=
  c7_type_errors.2.1 trivExt stObject "???".data rfl

/-! ## Claim C8 -/

/-- C8: with skipping enabled and a computed target altitude below the
limit (live-target mode, `tpg = false`), `calc_time` returns exactly `0.0`
and the simulated state keeps its mount alt/az and dome az (only the
history list records the `0.0`). -/
theorem c8_skip_below_limit (ext : ExtLib) (st : CTCState) (d : CommandDict)
    (c : Str) (a : AzAlt)
    (h1 : d.command_name = some c) (h2 : c ∈ availableCommands st)
    (h3 : st.tpg = false) (h4 : mountAltazTarget ext st d = .ok (some a))
    (h5 : a.alt < st.alt_limit) (h6 : st.skipping = true) :
    calcTime ext (.dict d) st
      = (.ok 0, { st with time_length_list := st.time_length_list ++ [0] }) ∧
    ({ st with time_length_list := st.time_length_list ++ [0] }).alt_mount = st.alt_mount ∧
    ({ st with time_length_list := st.time_length_list ++ [0] }).az_mount = st.az_mount ∧
    ({ st with time_length_list := st.time_length_list ++ [0] }).az_dome = st.az_dome := by
  refine ⟨?_, rfl, rfl, rfl⟩
  have hstep : positionStep ext (some a) d.command_name st = none := by
    simp [positionStep, h3, h6, not_le.mpr h5]
  have hnw : calcTimeNoWait ext d st = (.ok 0, st) := by
    simp only [calcTimeNoWait, h4, hstep]
  simp only [calcTime, dispatchCalc, h1, if_pos h2, hnw, appendList]

/-- C8 witness: an `OBJECT` command at altitude 5 with limit 15 and
skipping enabled costs `0.0` and leaves the position unchanged. -/
theorem c8_witness :
    calcTime trivExt (.dict lowObjectCmd) stSkip
      = (.ok 0, { stSkip with time_length_list := stSkip.time_length_list ++ [0] }) :=
  (c8_skip_below_limit trivExt stSkip lowObjectCmd "OBJECT".data ⟨10, 5⟩
    rfl (by decide) rfl (by with_unfolding_all rfl) (by norm_num [stSkip]) rfl).1

/-! ## Claim C2: amended invariant -/

theorem updateNights_mem : ∀ {l : List (Str × NightSpan)} {k : Str} {v : NightSpan}
    {e : Str × NightSpan}, e ∈ updateNights l k v → e ∈ l ∨ e = (k, v)
  | [], k, v, e, h => by
    simp only [updateNights, List.mem_singleton] at h
    exact Or.inr h
  | hd :: t, k, v, e, h => by
    unfold updateNights at h
    by_cases hc : hd.1 = k
    · rw [if_pos hc] at h
      rcases List.mem_cons.mp h with rfl | h2
      · exact Or.inr rfl
      · exact Or.inl (List.mem_cons_of_mem _ h2)
    · rw [if_neg hc] at h
      rcases List.mem_cons.mp h with rfl | h2
      · exact Or.inl (List.mem_cons_self _ _)
      · rcases updateNights_mem h2 with h3 | h3
        · exact Or.inl (List.mem_cons_of_mem _ h3)
        · exact Or.inr h3

theorem segOk_mono {st : SegState} {k : ℕ} (h : segOk st k) : segOk st (k + 1) :=
  ⟨h.1, fun s hs => Nat.lt_succ_of_lt (h.2 s hs)⟩

theorem findStep_ok {st : SegState} {k : ℕ} {r : RawRecord} (h : segOk st k) :
    segOk (findStep st k r) (k + 1) := by
  obtain ⟨hn, hl⟩ := h
  cases hcn : r.command_name with
  | none =>
    simp only [findStep, hcn]
    exact segOk_mono ⟨hn, hl⟩
  | some cname =>
    simp only [findStep, hcn]
    by_cases hb1 : cname = npStr ∧ r.done = none ∧ r.skipped = none
    · rw [if_pos hb1]
      cases hrid : r.random_id with
      | none => exact segOk_mono ⟨hn, hl⟩
      | some rid =>
        dsimp only
        by_cases hne : st.random_id ≠ rid
        · rw [if_pos hne]
          cases hls : st.line_started with
          | some s =>
            dsimp only
            cases huc : r.utc_time_stamp with
            | none => exact segOk_mono ⟨hn, hl⟩
            | some u =>
              dsimp only
              refine ⟨?_, ?_⟩
              · intro e he
                rcases updateNights_mem he with h2 | h2
                · exact hn e h2
                · rw [h2]
                  intro s2 hs2
                  cases hs2
                  have hk := hl s hls
                  dsimp only
                  omega
              · intro s2 hs2
                cases hs2
          | none =>
            refine ⟨hn, ?_⟩
            intro s2 hs2
            cases hs2
            exact Nat.lt_succ_self k
        · rw [if_neg hne]
          exact segOk_mono ⟨hn, hl⟩
    · rw [if_neg hb1]
      by_cases hb2 : cname = npStr ∧ (r.done ≠ none ∨ r.skipped ≠ none)
      · rw [if_pos hb2]
        cases hrid : r.random_id with
        | none => exact segOk_mono ⟨hn, hl⟩
        | some rid =>
          dsimp only
          by_cases heq : st.random_id = rid
          · rw [if_pos heq]
            cases huc : r.utc_time_stamp with
            | none => exact segOk_mono ⟨hn, hl⟩
            | some u =>
              dsimp only
              refine ⟨?_, ?_⟩
              · intro e he
                rcases updateNights_mem he with h2 | h2
                · exact hn e h2
                · rw [h2]
                  intro s2 hs2
                  have hk := hl s2 hs2
                  dsimp only
                  omega
              · intro s2 hs2
                cases hs2
          · rw [if_neg heq]
            exact segOk_mono ⟨hn, hl⟩
      · rw [if_neg hb2]
        exact segOk_mono ⟨hn, hl⟩

theorem foldl_enumFrom_ok : ∀ (data : List RawRecord) (k : ℕ) (st : SegState),
    segOk st k →
    segOk ((List.enumFrom k data).foldl (fun st p => findStep st p.1 p.2) st)
      (k + data.length)
  | [], k, st, h => by simpa using h
  | r :: t, k, st, h => by
    simp only [List.enumFrom, List.foldl_cons]
    have h2 := foldl_enumFrom_ok t (k + 1) _ (findStep_ok (r := r) h)
    have heq : k + 1 + t.length = k + (r :: t).length := by
      simp only [List.length_cons]
      omega
    exact heq ▸ h2

theorem findStep_noop {st : SegState} {k : ℕ} {r : RawRecord}
    (h : r.command_name ≠ some npStr) : findStep st k r = st := by
  cases hcn : r.command_name with
  | none => simp only [findStep, hcn]
  | some c =>
    have hc : c ≠ npStr := fun he => h (by rw [hcn, he])
    simp only [findStep, hcn]
    rw [if_neg (fun hand => hc hand.1), if_neg (fun hand => hc hand.1)]

theorem foldl_noop : ∀ (rest : List RawRecord) (k : ℕ) (st : SegState),
    (∀ x ∈ rest, x.command_name ≠ some npStr) →
    (List.enumFrom k rest).foldl (fun st p => findStep st p.1 p.2) st = st
  | [], _, _, _ => rfl
  | r :: t, k, st, h => by
    simp only [List.enumFrom, List.foldl_cons]
    rw [findStep_noop (h r (List.mem_cons_self _ _))]
    exact foldl_noop t (k + 1) st (fun x hx => h x (List.mem_cons_of_mem _ hx))

/-- C2 (amended): every emitted span with a recorded start index satisfies
`started ≤ ended` (equality occurs when a new `NIGHTPLAN` start immediately
follows the previous one and the defensive closure at the preceding index
fires); a `NIGHTPLAN` start followed only by non-`NIGHTPLAN` records is an
unterminated night and is discarded, never emitted. -/
theorem c2_span_bounds :
    (∀ (data : List RawRecord) (k : Str) (sp : NightSpan) (s : ℕ),
      (k, sp) ∈ findNightsId data → sp.started = some s → (s : ℤ) ≤ sp.ended) ∧
    (∀ (r : RawRecord) (rest : List RawRecord),
      r.command_name = some npStr → r.done = none → r.skipped = none →
      (∀ x ∈ rest, x.command_name ≠ some npStr) →
      findNightsId (r :: rest) = []) := by
  constructor
  · intro data k sp s hmem hs
    have h0 : segOk ⟨[], none, []⟩ 0 := ⟨fun e he => absurd he (List.not_mem_nil e), by simp⟩
    have hfin := foldl_enumFrom_ok data 0 ⟨[], none, []⟩ h0
    have := hfin.1 (k, sp) (by exact hmem)
    exact this s hs
  · intro r rest hcn hdone hskip hrest
    unfold findNightsId
    rw [show (r :: rest).enum = (0, r) :: List.enumFrom 1 rest from rfl]
    simp only [List.foldl_cons]
    rw [foldl_noop rest 1 _ hrest]
    simp only [findStep, hcn, hdone, hskip, and_self, if_true]
    cases hrid : r.random_id with
    | none => rfl
    | some rid =>
      dsimp only
      by_cases he : ([] : Str) ≠ rid
      · rw [if_pos he]
      · rw [if_neg he]

/-- C2 witness: the invariant applied to a proper three-record night,
whose emitted span has `started = 0` and `ended = 2`. -/
theorem c2_witness : ((0 : ℕ) : ℤ) ≤ (2 : ℤ) :=
  c2_span_bounds.1 [rawStartA, rawMid, rawDoneA] "A".data ⟨some 0, 2, "9".data⟩ 0
    (by decide) rfl

/-! ## Claim C3 -/

theorem verifyNights_append (ns : List (Str × NightSpan)) (l1 l2 : List LedgerEntry) :
    verifyNights ns (l1 ++ l2) = verifyNights (verifyNights ns l1) l2 := by
  unfold verifyNights
  exact List.foldl_append _ _ _ _

theorem verifyNights_self : ∀ ns : List (Str × NightSpan),
    verifyNights ns (ns.map (fun e => (⟨e.1, e.2.utc_time_stamp⟩ : LedgerEntry))) = []
  | [] => rfl
  | ⟨k, sp⟩ :: t => by
    have h1 : List.lookup k ((k, sp) :: t) = some sp := by
      simp [List.lookup]
    have h2 : eraseKey k ((k, sp) :: t) = t := by
      simp [eraseKey]
    unfold verifyNights
    simp only [List.map_cons, List.foldl_cons]
    rw [show (match List.lookup k ((k, sp) :: t) with
        | some sp2 =>
          if sp2.utc_time_stamp = sp.utc_time_stamp then eraseKey k ((k, sp) :: t)
          else (k, sp) :: t
        | none => (k, sp) :: t) = t by
      simp only [h1, if_true, eq_self_iff_true]
      exact h2]
    exact verifyNights_self t

/-- C3: running the cleaner a second time on the same raw log, with the
ledger extended by exactly the entries the first run appended, yields no
feature-record appends and no ledger appends: every night already matched
by `random_id` and `utc_time_stamp` is removed before feature
extraction. -/
theorem c3_idempotent (ext : ExtLib) (raw : List RawRecord) (ledger : List LedgerEntry)
    (tel : Str) (rm : Option RmModes)
    (out : List (Str × FeatureRecord) × List LedgerEntry)
    (h : dataClean ext raw ledger tel rm = .ok out) :
    dataClean ext raw (ledger ++ out.2) tel rm = .ok ([], []) := by
  simp only [dataClean] at h ⊢
  cases hb : buildCommandsData ext raw tel (verifyNights (findNightsId raw) ledger) rm with
  | error e =>
    rw [hb] at h
    cases h
  | ok cd =>
    rw [hb] at h
    have hout : out.2 = (verifyNights (findNightsId raw) ledger).map
        (fun e => (⟨e.1, e.2.utc_time_stamp⟩ : LedgerEntry)) := by
      cases h
      rfl
    rw [hout, verifyNights_append, verifyNights_self]
    rfl

/-- C3 witness: the idempotence theorem applied to the empty raw log and
empty ledger. -/
theorem c3_witness :
    dataClean trivExt [] (([] : List LedgerEntry)
        ++ (([] : List (Str × FeatureRecord)), ([] : List LedgerEntry)).2) "t1".data none
      = .ok ([], []) :=
  c3_idempotent trivExt [] [] "t1".data none ([], []) rfl

/-! ## Claim C9 -/

theorem positionStep_effect {ext : ExtLib} {azalt : Option AzAlt} {cn : Option Str}
    {st : CTCState} {d m : ℚ} {st1 : CTCState}
    (h : positionStep ext azalt cn st = some (d, m, st1)) :
    st1.time_length = st.time_length ∧ st1.time_length_list = st.time_length_list := by
  unfold positionStep at h
  repeat' split at h
  all_goals first
    | (cases h; exact ⟨rfl, rfl⟩)
    | cases h

theorem forcedReadoutMode_eq {cmd : CommandDict} {st st2 : CTCState}
    (h : forcedReadoutMode cmd st = .ok st2) : st2 = st := by
  unfold forcedReadoutMode at h
  repeat' split at h
  all_goals first
    | (cases h; rfl)
    | cases h

theorem calcTimeNoWait_effect {ext : ExtLib} {cmd : CommandDict} {st : CTCState}
    {res : Except PyErr ℚ} {st2 : CTCState}
    (h : calcTimeNoWait ext cmd st = (res, st2)) :
    st2.time_length_list = st.time_length_list ∧
    st2.time_length = st.time_length
      + (match res with | .ok t => t | .error _ => 0) := by
  unfold calcTimeNoWait at h
  cases hma : mountAltazTarget ext st cmd with
  | error e =>
    simp only [hma] at h
    cases h
    exact ⟨rfl, by simp⟩
  | ok azalt =>
    simp only [hma] at h
    cases hps : positionStep ext azalt cmd.command_name st with
    | none =>
      simp only [hps] at h
      cases h
      exact ⟨rfl, by simp⟩
    | some trip =>
      obtain ⟨dome, mnt, st1⟩ := trip
      have hst1 := positionStep_effect hps
      simp only [hps] at h
      cases hen : exposureNumberKw cmd.kwargs with
      | error e =>
        simp only [hen] at h
        cases h
        exact ⟨hst1.2, by simp [hst1.1]⟩
      | ok expno =>
        simp only [hen] at h
        cases hcn : cmd.command_name with
        | none =>
          simp only [hcn] at h
          cases h
          exact ⟨hst1.2, by simp [hst1.1]⟩
        | some cname =>
          simp only [hcn] at h
          cases hets : exposureTimeSumKw cmd.kwargs with
          | error e =>
            simp only [hets] at h
            cases h
            exact ⟨hst1.2, by simp [hst1.1]⟩
          | ok ets =>
            simp only [hets] at h
            cases hfc : filterChangesE st1.current_filter cmd.kwargs with
            | error e =>
              simp only [hfc] at h
              cases h
              exact ⟨hst1.2, by simp [hst1.1]⟩
            | ok fch =>
              simp only [hfc] at h
              cases hfr : forcedReadoutMode cmd st1 with
              | error e =>
                simp only [hfr] at h
                cases h
                exact ⟨hst1.2, by simp [hst1.1]⟩
              | ok stf =>
                have hstf : stf = st1 := forcedReadoutMode_eq hfr
                simp only [hfr] at h
                cases hrm : rmModeInverseMhz stf.rmode stf.telescope stf.set_rm_modes with
                | error e =>
                  simp only [hrm] at h
                  cases h
                  exact ⟨by rw [hstf]; exact hst1.2, by simp [hstf, hst1.1]⟩
                | ok rmv =>
                  simp only [hrm] at h
                  cases hlf : lastFilterE cmd.kwargs with
                  | error e =>
                    simp only [hlf] at h
                    cases h
                    exact ⟨by rw [hstf]; exact hst1.2, by simp [hstf, hst1.1]⟩
                  | ok lf =>
                    simp only [hlf] at h
                    cases hcl : calcTimeLinear { stf with current_filter := lf } cname
                        (paramList dome mnt ets fch (rmv * expno)
                          (ditherOn cname cmd.kwargs * expno)) with
                    | error e =>
                      simp only [hcl] at h
                      cases h
                      exact ⟨by rw [hstf]; exact hst1.2, by simp [hstf, hst1.1]⟩
                    | ok tc =>
                      simp only [hcl] at h
                      cases h
                      exact ⟨by rw [hstf]; exact hst1.2, by simp [hstf, hst1.1]⟩

theorem calcTimeWait_effect {ext : ExtLib} {cmd : CommandDict} {st : CTCState}
    {res : Except PyErr ℚ} {st2 : CTCState}
    (h : calcTimeWait ext cmd st = (res, st2)) :
    st2.time_length_list = st.time_length_list ∧
    st2.time_length = st.time_length
      + (match res with | .ok t => t | .error _ => 0) := by
  unfold calcTimeWait at h
  by_cases hw : cmd.command_name = some waitStr
  · rw [if_pos hw] at h
    cases hk : cmd.kwargs with
    | none =>
      simp only [hk] at h
      cases h
      exact ⟨rfl, by simp⟩
    | some kw =>
      simp only [hk] at h
      cases hs : List.lookup "sec".data kw with
      | some s =>
        simp only [hs] at h
        cases hf : pyFloatStr s with
        | none =>
          simp only [hf] at h
          cases h
          exact ⟨rfl, by simp⟩
        | some t =>
          simp only [hf] at h
          cases h
          exact ⟨rfl, by simp [addLen]⟩
      | none =>
        simp only [hs] at h
        cases hu : List.lookup "ut".data kw with
        | some u =>
          simp only [hu] at h
          cases ht : thatDayTime (st.start_time + st.time_length)
              (if (pySplit ':' u).length = 2
               then (pySplit ':' u).headI ++ ':' :: ((pySplit ':' u).get? 1).getD []
                    ++ ":00".data
               else u) with
          | error e =>
            simp only [ht] at h
            cases h
            exact ⟨rfl, by simp⟩
          | ok target =>
            simp only [ht] at h
            by_cases hge : target ≥ st.start_time + st.time_length
            · rw [if_pos hge] at h
              cases h
              exact ⟨rfl, by simp [addLen]⟩
            · rw [if_neg hge] at h
              cases ht2 : thatDayTime (st.start_time + st.time_length + 86400) u with
              | error e =>
                simp only [ht2] at h
                cases h
                exact ⟨rfl, by simp⟩
              | ok t2 =>
                simp only [ht2] at h
                cases h
                exact ⟨rfl, by simp [addLen]⟩
        | none =>
          simp only [hu] at h
          cases hsr : List.lookup "sunrise".data kw with
          | some hrs =>
            simp only [hsr] at h
            cases hf : pyFloatStr hrs with
            | none =>
              simp only [hf] at h
              cases h
              exact ⟨rfl, by simp⟩
            | some hh =>
              simp only [hf] at h
              cases hss : ext.sunRiseSet true hh (st.start_time + st.time_length) with
              | none =>
                simp only [hss] at h
                cases h
                exact ⟨rfl, by simp⟩
              | some sunTs =>
                simp only [hss] at h
                by_cases hgt : tdSeconds sunTs (st.start_time + st.time_length) / 3600 > 18
                · rw [if_pos hgt] at h
                  cases h
                  exact ⟨rfl, by simp⟩
                · rw [if_neg hgt] at h
                  cases h
                  exact ⟨rfl, by simp [addLen]⟩
          | none =>
            simp only [hsr] at h
            cases hst : List.lookup "sunset".data kw with
            | some hrs =>
              simp only [hst] at h
              cases hf : pyFloatStr hrs with
              | none =>
                simp only [hf] at h
                cases h
                exact ⟨rfl, by simp⟩
              | some hh =>
                simp only [hf] at h
                cases hss : ext.sunRiseSet false hh (st.start_time + st.time_length) with
                | none =>
                  simp only [hss] at h
                  cases h
                  exact ⟨rfl, by simp⟩
                | some sunTs =>
                  simp only [hss] at h
                  by_cases hgt : tdSeconds sunTs (st.start_time + st.time_length) / 3600 > 12
                  · rw [if_pos hgt] at h
                    cases h
                    exact ⟨rfl, by simp⟩
                  · rw [if_neg hgt] at h
                    cases h
                    exact ⟨rfl, by simp [addLen]⟩
            | none =>
              simp only [hst] at h
              cases h
              exact ⟨rfl, by simp⟩
  · rw [if_neg hw] at h
    cases h
    exact ⟨rfl, by simp⟩

/-- C9: after any `calc_time` call that returns without raising, the
accumulated `time_lenght_sec` equals the sum of the per-command history
`time_list` whenever it did before the call, and `reset_time` reestablishes
the invariant by clearing both together. -/
theorem c9_accumulator_invariant :
    (∀ (ext : ExtLib) (inp : CalcInput) (st : CTCState) (t : ℚ) (st2 : CTCState),
      st.time_length = st.time_length_list.sum →
      calcTime ext inp st = (.ok t, st2) →
      st2.time_length = st2.time_length_list.sum) ∧
    (∀ (q : ℚ) (st : CTCState),
      (resetTime q st).time_length = (resetTime q st).time_length_list.sum) := by
  constructor
  · intro ext inp st t st2 hinv hrun
    have key : ∀ (d : CommandDict) (t2 : ℚ) (st3 : CTCState),
        dispatchCalc ext d st = (.ok t2, st3) →
        st3.time_length = st3.time_length_list.sum := by
      intro d t2 st3 hd
      unfold dispatchCalc at hd
      cases hcn : d.command_name with
      | none =>
        simp only [hcn] at hd
        cases hd
        exact hinv
      | some cname =>
        simp only [hcn] at hd
        by_cases hin : cname ∈ availableCommands st
        · rw [if_pos hin] at hd
          cases hnw : calcTimeNoWait ext d st with
          | mk nres nst =>
            have he := calcTimeNoWait_effect hnw
            cases nres with
            | ok nt =>
              simp only [hnw] at hd
              cases hd
              simp only [appendList, List.sum_append, List.sum_cons, List.sum_nil]
              rw [he.1, he.2, hinv]
              simp
            | error ne =>
              simp only [hnw] at hd
              cases ne
              · dsimp only at hd
                cases hd
                rw [he.1, he.2, hinv]
                simp
              · dsimp only at hd
                exact absurd hd (by simp)
              · dsimp only at hd
                exact absurd hd (by simp)
              · dsimp only at hd
                exact absurd hd (by simp)
              · dsimp only at hd
                exact absurd hd (by simp)
        · rw [if_neg hin] at hd
          by_cases hnt : cname ∈ noTrainCommands
          · rw [if_pos hnt] at hd
            cases hw : calcTimeWait ext d st with
            | mk wres wst =>
              have he := calcTimeWait_effect hw
              cases wres with
              | ok wt =>
                simp only [hw] at hd
                cases hd
                simp only [appendList, List.sum_append, List.sum_cons, List.sum_nil]
                rw [he.1, he.2, hinv]
                simp
              | error we =>
                simp only [hw] at hd
                cases we
                · dsimp only at hd
                  cases hd
                  rw [he.1, he.2, hinv]
                  simp
                · dsimp only at hd
                  exact absurd hd (by simp)
                · dsimp only at hd
                  exact absurd hd (by simp)
                · dsimp only at hd
                  exact absurd hd (by simp)
                · dsimp only at hd
                  exact absurd hd (by simp)
          · rw [if_neg hnt] at hd
            dsimp only at hd
            cases hd
            simp only [appendList, List.sum_append, List.sum_cons, List.sum_nil]
            rw [hinv]
            simp
    cases inp with
    | dict d => exact key d t st2 hrun
    | str s =>
      unfold calcTime at hrun
      cases hp : ext.parsePlan s with
      | none =>
        simp only [hp] at hrun
        exact absurd hrun (by simp)
      | some d =>
        simp only [hp] at hrun
        exact key d t st2 hrun
    | other =>
      simp only [calcTime] at hrun
      exact absurd hrun (by simp)
  · intro q st
    simp [resetTime]

/-- C9 witness: the invariant transported across a concrete `WAIT 30`
call from a fresh state whose accumulator and history agree. -/
theorem c9_witness :
    (calcTime trivExt (.dict waitSecCmd) stObject).2.time_length
      = (calcTime trivExt (.dict waitSecCmd) stObject).2.time_length_list.sum :=
  c9_accumulator_invariant.1 trivExt (.dict waitSecCmd) stObject 30
    (calcTime trivExt (.dict waitSecCmd) stObject).2
    (by simp [stObject])
    (by with_unfolding_all rfl)

/-! ## Claim C10 -/

theorem bind_eq_ok {α β : Type} {x : Except PyErr α} {f : α → Except PyErr β} {b : β}
    (h : x >>= f = .ok b) : ∃ a, x = .ok a ∧ f a = .ok b := by
  cases x with
  | error e => simp [Bind.bind, Except.bind] at h
  | ok a => exact ⟨a, rfl, by simpa [Bind.bind, Except.bind] using h⟩

theorem buildFeat_ok_dither {ext : ExtLib} {first second third : RawRecord}
    {tel nid : Str} {rm : Option RmModes} {d : FeatureRecord}
    (hok : buildFeat ext first second third tel nid rm = .ok d) :
    ∃ dv en2, first.dither = some dv ∧ exposureNumberKw first.kwargs = .ok en2 ∧
      d.dither_expno = (if dv = "True".data then 1 else 0) * en2 := by
  unfold buildFeat at hok
  obtain ⟨cn, h1, hok⟩ := bind_eq_ok hok
  obtain ⟨uds, h2, hok⟩ := bind_eq_ok hok
  obtain ⟨tus, h3, hok⟩ := bind_eq_ok hok
  obtain ⟨tuq, h4, hok⟩ := bind_eq_ok hok
  obtain ⟨fus, h5, hok⟩ := bind_eq_ok hok
  obtain ⟨fuq, h6, hok⟩ := bind_eq_ok hok
  obtain ⟨fdb, h7, hok⟩ := bind_eq_ok hok
  obtain ⟨fdbq, h8, hok⟩ := bind_eq_ok hok
  obtain ⟨tds, h9, hok⟩ := bind_eq_ok hok
  obtain ⟨tdq, h10, hok⟩ := bind_eq_ok hok
  obtain ⟨fab, h11, hok⟩ := bind_eq_ok hok
  obtain ⟨faq, h12, hok⟩ := bind_eq_ok hok
  obtain ⟨tas, h13, hok⟩ := bind_eq_ok hok
  obtain ⟨taq, h14, hok⟩ := bind_eq_ok hok
  obtain ⟨fzb, h15, hok⟩ := bind_eq_ok hok
  obtain ⟨fzq, h16, hok⟩ := bind_eq_ok hok
  obtain ⟨tzs, h17, hok⟩ := bind_eq_ok hok
  obtain ⟨tzq, h18, hok⟩ := bind_eq_ok hok
  obtain ⟨ets, h19, hok⟩ := bind_eq_ok hok
  obtain ⟨fp, h20, hok⟩ := bind_eq_ok hok
  obtain ⟨fch, h21, hok⟩ := bind_eq_ok hok
  obtain ⟨rmm, h22, hok⟩ := bind_eq_ok hok
  obtain ⟨rmv, h23, hok⟩ := bind_eq_ok hok
  obtain ⟨en, h24, hok⟩ := bind_eq_ok hok
  obtain ⟨dv, hdv, hok⟩ := bind_eq_ok hok
  obtain ⟨en2, hen2, hok⟩ := bind_eq_ok hok
  cases hok
  cases hfd : first.dither with
  | none =>
    rw [hfd] at hdv
    simp [keyOr] at hdv
  | some a =>
    rw [hfd] at hdv
    simp only [keyOr, Except.ok.injEq] at hdv
    exact ⟨dv, en2, by rw [hdv], hen2, rfl⟩

/-- C10: `dither_expno` in a built feature record is nonzero only when the
start record's `dither` key holds exactly the string `'True'`; no feature
record at all can be built from a start record lacking the key — concretely,
the candidate with the missing key yields a caught `KeyError` and `None`
(`.ok none`), and the rest of the night is still processed, so the night's
accumulated data keeps exactly the record whose start carries
`dither = 'True'`. -/
theorem c10_dither_drop :
    (∀ (ext : ExtLib) (first second third : RawRecord) (tel nid : Str)
        (rm : Option RmModes) (d : FeatureRecord),
      buildFeat ext first second third tel nid rm = .ok d →
      d.dither_expno ≠ 0 → first.dither = some "True".data) ∧
    (∀ (ext : ExtLib) (first second third : RawRecord) (tel nid : Str)
        (rm : Option RmModes) (d : FeatureRecord),
      first.dither = none →
      buildFeat ext first second third tel nid rm ≠ .ok d) ∧
    buildFeat trivExt r0Night r1Night r2Night "zb08".data "n1".data none
      = .error .keyError ∧
    buildCommandData trivExt nightRecs "zb08".data "n1".data 0 none = .ok none ∧
    (buildNightAux trivExt nightRecs "zb08".data "n1".data none nightRecs.enum
        []).map (fun cd => cd.map (fun e => (e.1, e.2.map FeatureRecord.dither_expno)))
      = .ok [("OBJECT".data, [1])] := by
  refine ⟨?_, ?_, ?_, ?_, ?_⟩
  · intro ext first second third tel nid rm d hok hne
    obtain ⟨dv, en2, hfd, hen2, hde⟩ := buildFeat_ok_dither hok
    by_cases hdq : dv = "True".data
    · rw [hfd, hdq]
    · exfalso
      apply hne
      rw [hde, if_neg hdq, zero_mul]
  · intro ext first second third tel nid rm d h hok
    obtain ⟨dv, en2, hfd, hen2, hde⟩ := buildFeat_ok_dither hok
    rw [h] at hfd
    exact Option.noConfusion hfd
  · with_unfolding_all rfl
  · with_unfolding_all rfl
  · with_unfolding_all rfl

/-- C10 witness: the impossibility of building a feature record from the
concrete start record missing the `dither` key. -/
theorem c10_witness :
    buildFeat trivExt r0Night r1Night r2Night "zb08".data "n1".data none
      ≠ .ok dummyFeat :=
  c10_dither_drop.2.1 trivExt r0Night r1Night r2Night "zb08".data "n1".data none
    dummyFeat (by rfl)
